import Mathlib

/-!
# tower: the supervised application (`app.go`)

A shallow embedding of `app.go`: the `App` record, the stderr capturer, and the
`Start` / `Restart` / `Stop` life cycle, as state-passing functions over an
explicit system state.

* Go strings and byte slices are lists of byte values (`Bytes`).
* Pointers are addresses into explicit heaps: `App.Cmd` addresses the heap of
  `exec.Cmd` objects, `App.start` and `App.restart` address the heap of
  `sync.Once` objects.  `&sync.Once{}` and `exec.Command` allocate at the end
  of their heap.
* What the outside world answers during a call (compiler output, whether the
  artifact can be executed, the readiness probe) is a parameter of the call.
* A run-time panic (nil pointer dereference) is the result `none`.
-/

namespace Tower

/-! ## Strings -/

/-- Go strings and `[]byte` values: sequences of byte values. -/
abbrev Bytes := List Nat

/-- The bytes of an ASCII string literal. -/
def ascii (s : String) : Bytes := s.toList.map Char.toNat

/-- `strings.Index(s, sub)`: the position of the first occurrence of `sub` in `s`. -/
def stringsIndex : Bytes → Bytes → Option Nat
  | [], sub => if sub = [] then some 0 else none
  | c :: s, sub =>
    if sub.isPrefixOf (c :: s) then some 0
    else (stringsIndex s sub).map (· + 1)

/-- `strings.Contains(s, sub)`. -/
def stringsContains (s sub : Bytes) : Bool := (stringsIndex s sub).isSome

/-- `strings.Replace(s, old, new, n)` for a non-empty `old` and `n ≥ 0`: the first `n`
non-overlapping occurrences of `old`, left to right, are replaced by `new`. -/
def stringsReplace (s old new : Bytes) : Nat → Bytes
  | 0 => s
  | n + 1 =>
    match stringsIndex s old with
    | none => s
    | some i => s.take i ++ new ++ stringsReplace (s.drop (i + old.length)) old new n

/-- `const HttpPanicMessage`. -/
def HttpPanicMessage : Bytes := ascii "http: panic serving"

/-- The line the Go toolchain puts before its diagnostics. -/
def commandLineArguments : Bytes := ascii "# command-line-arguments\n"

/-! ## Data model -/

/-- Go `error` values that occur in `app.go`. -/
inductive GoError where
  /-- `errors.New(msg)` -/
  | errorsNew (msg : Bytes)
  /-- the error of `os.Stat(AppBin)` on a missing file -/
  | statError
  /-- an error of the readiness probe `dialAddress` -/
  | dialError
  /-- the `*exec.ExitError` of a command that ended with a non-zero status -/
  | exitError (status : Nat)
  deriving DecidableEq, Repr

/-- An `exec.Cmd` object as far as `app.go` looks at it.  `Process` is nil until the
child has been started, `ProcessState` is nil until its exit has been recorded.
`killed` is a ghost field: the supervisor has called `Process.Kill()` on it. -/
structure ExecCmd where
  Process : Option Nat
  ProcessState : Option Nat
  killed : Bool
  deriving DecidableEq, Repr

/-- `type App struct`.  `Cmd`, `start` and `restart` are addresses. -/
structure App where
  Cmd : Option Nat
  MainFile : Bytes
  Port : Bytes
  Name : Bytes
  Root : Bytes
  KeyPress : Bool
  LastError : Bytes
  start : Nat
  startErr : Option GoError
  restart : Nat
  restartErr : Option GoError
  deriving DecidableEq, Repr

/-- The supervisor process: the `App` and the part of the world it acts on. -/
structure Sys where
  app : App
  /-- the file `AppBin` exists -/
  artifact : Bool
  /-- heap of `exec.Cmd` objects, in allocation order -/
  cmds : List ExecCmd
  /-- heap of `sync.Once` objects: the `done` flag of each -/
  onces : List Bool
  /-- chunks written to `os.Stdout` by the supervisor -/
  stdout : List Bytes
  /-- how many times the pair of keypress and signal goroutines was spawned -/
  watchers : Nat
  deriving DecidableEq, Repr

/-- What the world answers during one `Start`. -/
structure StartEnv where
  /-- combined output of `go build` -/
  out : Bytes
  /-- the error of `CombinedOutput` (the compiler's exit status), which `build` drops -/
  buildErr : Option GoError
  /-- whether `AppBin` exists once the compiler has returned -/
  artifactAfterBuild : Bool
  /-- the pid of the child when `Cmd.Run` managed to start it -/
  launch : Option Nat
  /-- the exit status when the child exited before the probe returned -/
  exited : Option Nat
  /-- the result of `dialAddress("127.0.0.1:"+Port, 60)` -/
  dial : Option GoError
  deriving DecidableEq, Repr

/-! ## Console -/

/-- `os.Stdout.Write(p)`. -/
def stdoutWrite (s : Sys) (p : Bytes) : Sys :=
  { s with stdout := s.stdout ++ [p] }

/-- `fmt.Println(line)`. -/
def println (s : Sys) (line : Bytes) : Sys :=
  stdoutWrite s (line ++ ascii "\n")

/-! ## Observers -/

/-- `App.IsRunning`: `this.Cmd != nil && this.Cmd.ProcessState == nil`. -/
def IsRunning (s : Sys) : Bool :=
  match s.app.Cmd with
  | none => false
  | some a =>
    match s.cmds[a]? with
    | none => false
    | some c => c.ProcessState.isNone

/-- `App.IsQuit`: `this.Cmd != nil && this.Cmd.ProcessState != nil`. -/
def IsQuit (s : Sys) : Bool :=
  match s.app.Cmd with
  | none => false
  | some a =>
    match s.cmds[a]? with
    | none => false
    | some c => c.ProcessState.isSome

/-! ## The stderr capturer -/

/-- `StderrCapturer.Write(p)`.  `res` is what `os.Stdout.Write(p)` returns. -/
def StderrCapturer.Write (p : Bytes) (res : Nat × Option GoError) (s : Sys) :
    Sys × (Nat × Option GoError) :=
  if stringsContains p HttpPanicMessage then
    let s1 := { s with app := { s.app with LastError := p } }
    let s2 := stdoutWrite s1 (ascii "----------- Application Error -----------\n")
    let s3 := stdoutWrite s2 p
    let s4 := stdoutWrite s3 (ascii "-----------------------------------------\n")
    (s4, res)
  else
    (stdoutWrite s p, res)

/-! ## Construction -/

/-- `NewApp(mainFile, port)`.  `name` is `path.Base` of the working directory and
`root` is `path.Dir(mainFile)`; `artifact` tells whether `AppBin` exists already. -/
def NewApp (mainFile port name root : Bytes) (artifact : Bool) : Sys :=
  { app :=
      { Cmd := none, MainFile := mainFile, Port := port, Name := name, Root := root,
        KeyPress := false, LastError := [], start := 0, startErr := none,
        restart := 1, restartErr := none }
    artifact := artifact
    cmds := []
    onces := [false, false]
    stdout := []
    watchers := 0 }

/-! ## Life cycle -/

/-- `App.RestartOnReturn`: spawns the two watcher goroutines once. -/
def RestartOnReturn (s : Sys) : Sys :=
  if s.app.KeyPress then s
  else { s with app := { s.app with KeyPress := true }, watchers := s.watchers + 1 }

/-- `App.build`. -/
def build (env : StartEnv) (s : Sys) : Sys × Option GoError :=
  let s1 := println s (ascii "== Building " ++ s.app.Name)
  let s2 := { s1 with artifact := env.artifactAfterBuild }
  if env.out.length > 0 then
    let msg := stringsReplace env.out commandLineArguments [] 1
    let s3 := stdoutWrite s2
      (ascii "----------- Build Error -----------\n" ++ msg ++
        ascii "-----------------------------------\n")
    (s3, some (GoError.errorsNew msg))
  else
    (s2, none)

/-- The object `exec.Command(AppBin)` creates, as the goroutine running `Cmd.Run()`
has left it by the time the readiness probe returns: `Process` is set when the child
could be started, `ProcessState` when that child has exited meanwhile. -/
def launchedCmd (env : StartEnv) : ExecCmd :=
  { Process := env.launch
    ProcessState := if env.launch.isSome then env.exited else none
    killed := false }

/-- `App.run`.  The goroutine running `Cmd.Run()` and the readiness probe are taken
together: when `run` returns, the new `exec.Cmd` holds what the goroutine did
meanwhile. -/
def run (env : StartEnv) (s : Sys) : Sys × Option GoError :=
  if s.artifact then
    let s1 := println s (ascii "== Running " ++ s.app.Name)
    let s2 := { s1 with app := { s1.app with Cmd := some s1.cmds.length },
                        cmds := s1.cmds ++ [launchedCmd env] }
    (s2, env.dial)
  else
    (s, some GoError.statError)

/-- `this.start = &sync.Once{}`. -/
def rearmStart (s : Sys) : Sys :=
  { s with app := { s.app with start := s.onces.length }, onces := s.onces ++ [false] }

/-- `this.restart = &sync.Once{}`. -/
def rearmRestart (s : Sys) : Sys :=
  { s with app := { s.app with restart := s.onces.length }, onces := s.onces ++ [false] }

/-- The closure `Start` hands to `this.start.Do`. -/
def startBody (doBuild : Bool) (env : StartEnv) (s : Sys) : Sys :=
  let afterBuild : Sys × Bool :=
    if doBuild then
      let r := build env s
      let s1 := { r.1 with app := { r.1.app with startErr := r.2 } }
      (s1, r.2.isSome)
    else (s, false)
  if afterBuild.2 then
    rearmStart (println afterBuild.1 (ascii "== Fail to build " ++ afterBuild.1.app.Name))
  else
    let r := run env afterBuild.1
    let s2 := { r.1 with app := { r.1.app with startErr := r.2 } }
    if r.2.isSome then
      rearmStart
        { s2 with app := { s2.app with
            startErr := some (GoError.errorsNew (ascii "Fail to run " ++ s2.app.Name)) } }
    else
      rearmStart (RestartOnReturn s2)

/-- `App.Start(build)`.  `Once.Do` runs the closure when the gate has not fired and
marks that gate (the object `this.start` addressed on entry) done afterwards. -/
def Start (doBuild : Bool) (env : StartEnv) (s : Sys) : Option (Sys × Option GoError) :=
  match s.onces[s.app.start]? with
  | none => none
  | some true => some (s, s.app.startErr)
  | some false =>
    let s1 := startBody doBuild env s
    let s2 := { s1 with onces := s1.onces.set s.app.start true }
    some (s2, s2.app.startErr)

/-- `App.Stop`.  `this.Cmd.Process.Kill()` dereferences `Process`: a nil `Process`
is a run-time panic. -/
def Stop (s : Sys) : Option Sys :=
  if IsRunning s then
    match s.app.Cmd with
    | none => none
    | some a =>
      match s.cmds[a]? with
      | none => none
      | some c =>
        let s1 := { s with artifact := false }
        let s2 := println s1 (ascii "== Stopping " ++ s.app.Name)
        match c.Process with
        | none => none
        | some _ =>
          some { s2 with cmds := s2.cmds.set a { c with killed := true },
                         app := { s2.app with Cmd := none } }
  else some s

/-- `App.Restart`. -/
def Restart (env : StartEnv) (s : Sys) : Option (Sys × Option GoError) :=
  match s.onces[s.app.restart]? with
  | none => none
  | some true => some (s, s.app.restartErr)
  | some false =>
    match Stop s with
    | none => none
    | some s1 =>
      match Start true env s1 with
      | none => none
      | some (s2, e) =>
        let s3 := rearmRestart { s2 with app := { s2.app with restartErr := e } }
        let s4 := { s3 with onces := s3.onces.set s.app.restart true }
        some (s4, s4.app.restartErr)

/-! ## Children, events and sequences of calls -/

/-- A child is live: it was launched, the supervisor has not killed it, and it has
not exited. -/
def ExecCmd.live (c : ExecCmd) : Bool :=
  c.Process.isSome && !c.killed && c.ProcessState.isNone

/-- The number of live children among all that the `App` has launched. -/
def liveCount (s : Sys) : Nat := (s.cmds.filter ExecCmd.live).length

/-- The goroutine of the command at address `a` sees its child exit and records the
exit status. -/
def childExit (a code : Nat) (s : Sys) : Sys :=
  match s.cmds[a]? with
  | none => s
  | some c =>
    if c.Process.isSome && c.ProcessState.isNone then
      { s with cmds := s.cmds.set a { c with ProcessState := some code } }
    else s

/-- What happens to an `App`, one thing after another: calls of its operations, a
child exiting, a chunk arriving on the child's stderr. -/
inductive Event where
  | start (doBuild : Bool) (env : StartEnv)
  | restart (env : StartEnv)
  | stop
  | exit (a code : Nat)
  | stderr (p : Bytes) (res : Nat × Option GoError)
  deriving DecidableEq, Repr

/-- One event. -/
def step (e : Event) (s : Sys) : Option Sys :=
  match e with
  | .start b env => (Start b env s).map Prod.fst
  | .restart env => (Restart env s).map Prod.fst
  | .stop => Stop s
  | .exit a code => some (childExit a code s)
  | .stderr p res => some (StderrCapturer.Write p res s).1

/-- A sequence of events, one after another; `none` when one of them panics. -/
def runEvents : Sys → List Event → Option Sys
  | s, [] => some s
  | s, e :: es =>
    match step e s with
    | none => none
    | some s1 => runEvents s1 es

/-- In the sequence every direct call of `Start` finds `IsRunning()` false. -/
def startsWhenStopped : Sys → List Event → Bool
  | _, [] => true
  | s, e :: es =>
    (match e with
      | .start _ _ => !IsRunning s
      | _ => true) &&
    (match step e s with
      | none => true
      | some s1 => startsWhenStopped s1 es)

/-- Both gates are unfired and are two different `sync.Once` objects. -/
def Armed (s : Sys) : Prop :=
  s.onces[s.app.start]? = some false ∧ s.onces[s.app.restart]? = some false ∧
    s.app.start ≠ s.app.restart

instance (s : Sys) : Decidable (Armed s) := by unfold Armed; infer_instance

/-- The handle, when there is one, is the most recently created command. -/
def HandleNewest (s : Sys) : Prop :=
  ∀ a, s.app.Cmd = some a → a + 1 = s.cmds.length

/-- Every live child is the one the handle designates. -/
def LiveIsHandle (s : Sys) : Prop :=
  ∀ a c, s.cmds[a]? = some c → c.live = true → s.app.Cmd = some a

/-! ## Sample states -/

/-- A build that succeeds without output, a child that starts and serves. -/
def envOk : StartEnv :=
  { out := [], buildErr := none, artifactAfterBuild := true, launch := some 4711,
    exited := none, dial := none }

/-- A build whose output is a diagnostic after the toolchain's preamble line. -/
def envBuildError : StartEnv :=
  { out := commandLineArguments ++ ascii "./main.go:3: undefined: x\n",
    buildErr := some (GoError.exitError 2), artifactAfterBuild := true,
    launch := some 4711, exited := none, dial := none }

/-- A build without output whose artifact cannot be executed: `Cmd.Run` fails to
start a process and the probe times out. -/
def envLaunchFails : StartEnv :=
  { out := [], buildErr := none, artifactAfterBuild := true, launch := none,
    exited := none,
    dial := some GoError.dialError }

/-- A child that starts but never listens: the probe times out. -/
def envProbeTimeout : StartEnv :=
  { out := [], buildErr := none, artifactAfterBuild := true, launch := some 4711,
    exited := none,
    dial := some GoError.dialError }

/-- A fresh `App` with no artifact on disk. -/
def fresh : Sys := NewApp (ascii "main.go") (ascii "3000") (ascii "app") (ascii ".") false

/-- A fresh `App` with a stale artifact on disk. -/
def freshStale : Sys := NewApp (ascii "main.go") (ascii "3000") (ascii "app") (ascii ".") true

/-- The state after a successful `Start(true)` on a fresh `App`: Running. -/
def running : Sys :=
  { fresh with
    app := { fresh.app with Cmd := some 0, KeyPress := true, start := 2 }
    artifact := true
    cmds := [{ Process := some 4711, ProcessState := none, killed := false }]
    onces := [true, false, false]
    stdout := [ascii "== Building app\n", ascii "== Running app\n"]
    watchers := 1 }

/-- The Running state after its child has exited with status 2: Exited. -/
def exited : Sys := childExit 0 2 running

/-- The state after `Start(true)` on a fresh `App` when the artifact could not be
executed: a handle whose `Process` is nil. -/
def launchFailed : Sys :=
  { fresh with
    app := { fresh.app with Cmd := some 0, start := 2,
                            startErr := some (GoError.errorsNew (ascii "Fail to run app")) }
    artifact := true
    cmds := [{ Process := none, ProcessState := none, killed := false }]
    onces := [true, false, false]
    stdout := [ascii "== Building app\n", ascii "== Running app\n"] }

/-- A sequence of calls and events used as a sample. -/
def sampleEvents : List Event :=
  [.start true envOk, .restart envOk, .stop, .restart envBuildError, .start true envOk,
   .exit 2 0, .start false envOk, .stderr HttpPanicMessage (19, none)]

/-! ## Strings: what `strings.Index` finds -/

theorem stringsIndex_of_isPrefixOf (s sub : Bytes) (h : sub.isPrefixOf s = true) :
    stringsIndex s sub = some 0 := by
  cases s with
  | nil =>
    have : sub = [] := by
      cases sub with
      | nil => rfl
      | cons x xs => simp [List.isPrefixOf] at h
    simp [stringsIndex, this]
  | cons c s => simp [stringsIndex, h]

theorem stringsIndex_eq_none_iff (s sub : Bytes) :
    stringsIndex s sub = none ↔ ¬ sub <:+: s := by
  induction s with
  | nil =>
    by_cases h : sub = []
    · simp [stringsIndex, h]
    · simp [stringsIndex, h]
  | cons c s ih =>
    by_cases h : sub.isPrefixOf (c :: s) = true
    · have hp : sub <+: c :: s := List.isPrefixOf_iff_prefix.mp h
      simp [stringsIndex, h, hp.isInfix]
    · have hp : ¬ sub <+: c :: s := fun hp => h (List.isPrefixOf_iff_prefix.mpr hp)
      simp [stringsIndex, h, ih, List.infix_cons_iff, hp]

theorem stringsContains_iff (s sub : Bytes) :
    stringsContains s sub = true ↔ sub <:+: s := by
  unfold stringsContains
  rw [Option.isSome_iff_ne_none, Ne, stringsIndex_eq_none_iff, not_not]

/-- The first occurrence: when `sub` is non-empty and does not occur in `a` followed by
all but the last byte of `sub`, `strings.Index` finds `sub` in `a ++ sub ++ b` at
position `a.length`. -/
theorem stringsIndex_first (sub b : Bytes) (hsub : sub ≠ []) :
    ∀ a : Bytes, ¬ sub <:+: a ++ sub.dropLast →
      stringsIndex (a ++ sub ++ b) sub = some a.length := by
  intro a
  induction a with
  | nil =>
    intro _
    apply stringsIndex_of_isPrefixOf
    exact List.isPrefixOf_iff_prefix.mpr ⟨b, by simp⟩
  | cons x a ih =>
    intro hno
    have hno' : ¬ sub <:+: a ++ sub.dropLast := fun h =>
      hno (h.trans (List.suffix_cons x (a ++ sub.dropLast)).isInfix)
    have hnp : ¬ sub.isPrefixOf (x :: (a ++ sub ++ b)) = true := by
      intro hp
      have hp1 : sub <+: x :: (a ++ sub ++ b) := List.isPrefixOf_iff_prefix.mp hp
      have hsplit : x :: (a ++ sub ++ b) =
          (x :: a ++ sub.dropLast) ++ ([sub.getLast hsub] ++ b) := by
        have := List.dropLast_append_getLast hsub
        calc x :: (a ++ sub ++ b)
            = x :: (a ++ (sub.dropLast ++ [sub.getLast hsub]) ++ b) := by rw [this]
          _ = (x :: a ++ sub.dropLast) ++ ([sub.getLast hsub] ++ b) := by simp
      have hp2 : (x :: a ++ sub.dropLast) <+: x :: (a ++ sub ++ b) := ⟨_, hsplit.symm⟩
      have hlen : sub.length ≤ (x :: a ++ sub.dropLast).length := by
        have : 0 < sub.length := List.length_pos.mpr hsub
        simp
        omega
      exact hno (List.prefix_of_prefix_length_le hp1 hp2 hlen).isInfix
    have : stringsIndex (x :: (a ++ sub ++ b)) sub = some (a.length + 1) := by
      simp only [stringsIndex, hnp]
      rw [ih hno']
      rfl
    simpa using this

/-- With no occurrence `strings.Replace` gives back its input. -/
theorem stringsReplace_absent (s old new : Bytes) (n : Nat) (h : ¬ old <:+: s) :
    stringsReplace s old new n = s := by
  cases n with
  | zero => rfl
  | succ n => simp [stringsReplace, (stringsIndex_eq_none_iff s old).mpr h]

/-- The call `strings.Replace(s, old, "", 1)` removes the first occurrence of `old`. -/
theorem stringsReplace_first (a b old : Bytes) (hold : old ≠ [])
    (h : ¬ old <:+: a ++ old.dropLast) :
    stringsReplace (a ++ old ++ b) old [] 1 = a ++ b := by
  have hi := stringsIndex_first old b hold a h
  simp only [stringsReplace, hi]
  simp

theorem commandLineArguments_ne_nil : commandLineArguments ≠ [] := by decide

/-! ## Frame lemmas for the life-cycle operations -/

theorem startBody_gates (b : Bool) (env : StartEnv) (s : Sys) :
    (startBody b env s).onces = s.onces ++ [false] ∧
    (startBody b env s).app.start = s.onces.length ∧
    (startBody b env s).app.restart = s.app.restart ∧
    (startBody b env s).app.restartErr = s.app.restartErr := by
  unfold startBody build run rearmStart RestartOnReturn println stdoutWrite
  by_cases hb : b <;> by_cases ho : env.out.length > 0 <;> by_cases ha : s.artifact
    <;> by_cases hab : env.artifactAfterBuild <;> by_cases hd : env.dial.isSome
    <;> by_cases hk : s.app.KeyPress <;> simp [hb, ho, ha, hab, hd, hk]

theorem Start_armed (b : Bool) (env : StartEnv) (s : Sys)
    (h : s.onces[s.app.start]? = some false) :
    Start b env s =
      some ({ startBody b env s with
                onces := (startBody b env s).onces.set s.app.start true },
            (startBody b env s).app.startErr) := by
  simp [Start, h]

theorem Start_fired (b : Bool) (env : StartEnv) (s : Sys)
    (h : s.onces[s.app.start]? = some true) :
    Start b env s = some (s, s.app.startErr) := by
  simp [Start, h]

theorem Stop_not_running (s : Sys) (h : IsRunning s = false) : Stop s = some s := by
  simp [Stop, h]

theorem Stop_running (s : Sys) (a pid : Nat) (c : ExecCmd) (ha : s.app.Cmd = some a)
    (hc : s.cmds[a]? = some c) (hs : c.ProcessState = none) (hp : c.Process = some pid) :
    Stop s = some
      { s with
        artifact := false
        stdout := s.stdout ++ [ascii "== Stopping " ++ s.app.Name ++ ascii "\n"]
        cmds := s.cmds.set a { c with killed := true }
        app := { s.app with Cmd := none } } := by
  have hr : IsRunning s = true := by simp [IsRunning, ha, hc, hs]
  simp [Stop, hr, ha, hc, hp, println, stdoutWrite]

theorem Stop_nil_process (s : Sys) (a : Nat) (c : ExecCmd) (ha : s.app.Cmd = some a)
    (hc : s.cmds[a]? = some c) (hs : c.ProcessState = none) (hp : c.Process = none) :
    Stop s = none := by
  have hr : IsRunning s = true := by simp [IsRunning, ha, hc, hs]
  simp [Stop, hr, ha, hc, hp]

/-- What `Stop` leaves untouched and what holds after it, whenever it returns. -/
theorem Stop_frame (s s1 : Sys) (h : Stop s = some s1) :
    s1.onces = s.onces ∧ s1.app.start = s.app.start ∧ s1.app.restart = s.app.restart ∧
    s1.cmds.length = s.cmds.length ∧ IsRunning s1 = false ∧
    (s1.app.Cmd = none ∨ s1.app.Cmd = s.app.Cmd) := by
  by_cases hr : IsRunning s = true
  · unfold Stop at h
    rw [if_pos hr] at h
    cases ha : s.app.Cmd with
    | none => simp [ha] at h
    | some a =>
      cases hc : s.cmds[a]? with
      | none => simp [ha, hc] at h
      | some c =>
        cases hp : c.Process with
        | none => simp [ha, hc, hp] at h
        | some pid =>
          simp [ha, hc, hp, println, stdoutWrite] at h
          subst h
          simp [IsRunning]
  · have hr' : IsRunning s = false := by simpa using hr
    rw [Stop_not_running s hr'] at h
    cases h
    simp [hr']

theorem lt_of_getElem?_eq_some {α : Type} (l : List α) (i : Nat) (x : α)
    (h : l[i]? = some x) : i < l.length := by
  by_contra hc
  rw [List.getElem?_eq_none (by omega)] at h
  cases h

/-- What the closure of `Start` does to the commands: nothing, or one new command
that becomes the handle. -/
theorem startBody_cmds (b : Bool) (env : StartEnv) (s : Sys) :
    ((startBody b env s).cmds = s.cmds ∧ (startBody b env s).app.Cmd = s.app.Cmd) ∨
    ((startBody b env s).cmds = s.cmds ++ [launchedCmd env] ∧
      (startBody b env s).app.Cmd = some s.cmds.length) := by
  unfold startBody build run rearmStart RestartOnReturn println stdoutWrite
  by_cases hb : b <;> by_cases ho : env.out.length > 0 <;> by_cases ha : s.artifact
    <;> by_cases hab : env.artifactAfterBuild <;> by_cases hd : env.dial.isSome
    <;> by_cases hk : s.app.KeyPress <;> simp [hb, ho, ha, hab, hd, hk]

/-- `Stop` after a `Stop` that returned changes nothing and kills nothing. -/
theorem Stop_idempotent (s s1 : Sys) (h : Stop s = some s1) : Stop s1 = some s1 :=
  Stop_not_running s1 (Stop_frame s s1 h).2.2.2.2.1

/-! ## The gates stay armed -/

theorem Armed_Start (b : Bool) (env : StartEnv) (s s1 : Sys) (e : Option GoError)
    (h : Armed s) (hs : Start b env s = some (s1, e)) :
    Armed s1 ∧ s1.app.start = s.onces.length ∧ s1.app.restart = s.app.restart := by
  obtain ⟨h1, h2, h3⟩ := h
  rw [Start_armed b env s h1] at hs
  obtain ⟨g1, g2, g3, _⟩ := startBody_gates b env s
  have l1 := lt_of_getElem?_eq_some _ _ _ h1
  have l2 := lt_of_getElem?_eq_some _ _ _ h2
  simp only [Option.some.injEq, Prod.mk.injEq] at hs
  obtain ⟨rfl, rfl⟩ := hs
  refine ⟨⟨?_, ?_, ?_⟩, g2, g3⟩
  · simp only [g1, g2]
    rw [List.getElem?_set_ne (by omega)]
    simp
  · simp only [g1, g3]
    rw [List.getElem?_set_ne (by omega), List.getElem?_append_left l2]
    exact h2
  · simp only [g2, g3]
    omega

theorem Armed_Stop (s s1 : Sys) (h : Armed s) (hs : Stop s = some s1) : Armed s1 := by
  obtain ⟨g1, g2, g3, _⟩ := Stop_frame s s1 hs
  unfold Armed at *
  rw [g1, g2, g3]
  exact h

/-- `Restart` on an unfired gate: `Stop`, `Start(true)`, the error kept in `restartErr`,
a new gate. -/
theorem Restart_armed (env : StartEnv) (s : Sys) (h : s.onces[s.app.restart]? = some false) :
    Restart env s =
      ((Stop s).bind (Start true env)).map fun r =>
        ({ r.1 with
            app := { r.1.app with restartErr := r.2, restart := r.1.onces.length }
            onces := (r.1.onces ++ [false]).set s.app.restart true }, r.2) := by
  unfold Restart
  rw [h]
  cases hst : Stop s with
  | none => simp
  | some s1 =>
    cases hsa : Start true env s1 with
    | none => simp [hsa]
    | some r =>
      obtain ⟨s2, e⟩ := r
      simp [hsa, rearmRestart]

theorem Armed_Restart (env : StartEnv) (s s4 : Sys) (e : Option GoError)
    (h : Armed s) (hs : Restart env s = some (s4, e)) : Armed s4 := by
  rw [Restart_armed env s h.2.1] at hs
  cases hst : Stop s with
  | none => simp [hst] at hs
  | some s1 =>
    cases hsa : Start true env s1 with
    | none => simp [hst, hsa] at hs
    | some r =>
      obtain ⟨s2, e2⟩ := r
      have hA1 := Armed_Stop s s1 h hst
      obtain ⟨hA2, k1, k2⟩ := Armed_Start true env s1 s2 e2 hA1 hsa
      obtain ⟨f1, f2, f3, _⟩ := Stop_frame s s1 hst
      simp only [hst, hsa, Option.some_bind, Option.map_some', Option.some.injEq,
        Prod.mk.injEq] at hs
      obtain ⟨rfl, rfl⟩ := hs
      obtain ⟨a1, a2, a3⟩ := hA2
      have l1 := lt_of_getElem?_eq_some _ _ _ a1
      have l2 := lt_of_getElem?_eq_some _ _ _ a2
      rw [k2, f3] at l2
      refine ⟨?_, ?_, ?_⟩
      · show ((s2.onces ++ [false]).set s.app.restart true)[s2.app.start]? = some false
        rw [List.getElem?_set_ne (by rw [← f3, ← k2]; exact fun hh => a3 hh.symm),
          List.getElem?_append_left l1]
        exact a1
      · show ((s2.onces ++ [false]).set s.app.restart true)[s2.onces.length]? = some false
        rw [List.getElem?_set_ne (by omega)]
        simp
      · show s2.app.start ≠ s2.onces.length
        omega

/-! ## The handle designates the only live child -/

theorem not_live_of_not_running (s : Sys) (a : Nat) (c : ExecCmd) (hr : IsRunning s = false)
    (ha : s.app.Cmd = some a) (hc : s.cmds[a]? = some c) : c.live = false := by
  simp [IsRunning, ha, hc] at hr
  cases hps : c.ProcessState with
  | none => simp [hps] at hr
  | some st => simp [ExecCmd.live, hps]

theorem live_Start (b : Bool) (env : StartEnv) (s s1 : Sys) (e : Option GoError)
    (hg : s.onces[s.app.start]? = some false) (hr : IsRunning s = false)
    (hN : HandleNewest s) (hL : LiveIsHandle s) (hs : Start b env s = some (s1, e)) :
    HandleNewest s1 ∧ LiveIsHandle s1 := by
  rw [Start_armed b env s hg] at hs
  simp only [Option.some.injEq, Prod.mk.injEq] at hs
  obtain ⟨rfl, rfl⟩ := hs
  rcases startBody_cmds b env s with ⟨c1, c2⟩ | ⟨c1, c2⟩
  · refine ⟨?_, ?_⟩
    · intro a ha
      have ha' : s.app.Cmd = some a := by rw [← c2]; exact ha
      have := hN a ha'
      show a + 1 = (startBody b env s).cmds.length
      rw [c1]; exact this
    · intro a c hc hl
      have hc' : s.cmds[a]? = some c := by rw [← c1]; exact hc
      show (startBody b env s).app.Cmd = some a
      rw [c2]; exact hL a c hc' hl
  · refine ⟨?_, ?_⟩
    · intro a ha
      have ha' : some s.cmds.length = some a := by rw [← c2]; exact ha
      show a + 1 = (startBody b env s).cmds.length
      rw [c1]
      simp at ha'
      simp [ha']
    · intro a c hc hl
      have hc' : (s.cmds ++ [launchedCmd env])[a]? = some c := by rw [← c1]; exact hc
      show (startBody b env s).app.Cmd = some a
      rw [c2]
      by_cases hlt : a < s.cmds.length
      · rw [List.getElem?_append_left hlt] at hc'
        have hh := hL a c hc' hl
        have := not_live_of_not_running s a c hr hh hc'
        rw [this] at hl
        cases hl
      · have hlen := lt_of_getElem?_eq_some _ _ _ hc'
        simp at hlen
        have : a = s.cmds.length := by omega
        rw [this]

theorem live_Stop (s s1 : Sys) (hN : HandleNewest s) (hL : LiveIsHandle s)
    (hs : Stop s = some s1) : HandleNewest s1 ∧ LiveIsHandle s1 := by
  by_cases hr : IsRunning s = true
  · unfold Stop at hs
    rw [if_pos hr] at hs
    cases ha : s.app.Cmd with
    | none => simp [ha] at hs
    | some a =>
      cases hc : s.cmds[a]? with
      | none => simp [ha, hc] at hs
      | some c =>
        cases hp : c.Process with
        | none => simp [ha, hc, hp] at hs
        | some pid =>
          simp [ha, hc, hp, println, stdoutWrite] at hs
          subst hs
          refine ⟨?_, ?_⟩
          · intro a' h'
            cases h'
          · intro a' c' hc' hl
            exfalso
            simp only at hc'
            by_cases haa : a = a'
            · subst haa
              rw [List.getElem?_set_self (lt_of_getElem?_eq_some _ _ _ hc)] at hc'
              cases hc'
              simp [ExecCmd.live] at hl
            · rw [List.getElem?_set_ne haa] at hc'
              have := hL a' c' hc' hl
              rw [ha] at this
              cases this
              exact haa rfl
  · have hr' : IsRunning s = false := by simpa using hr
    rw [Stop_not_running s hr'] at hs
    cases hs
    exact ⟨hN, hL⟩

theorem live_childExit (a code : Nat) (s : Sys) (hN : HandleNewest s) (hL : LiveIsHandle s) :
    HandleNewest (childExit a code s) ∧ LiveIsHandle (childExit a code s) := by
  unfold childExit
  cases hc : s.cmds[a]? with
  | none => exact ⟨hN, hL⟩
  | some c =>
    by_cases hcond : (c.Process.isSome && c.ProcessState.isNone) = true
    · simp only [hcond, if_true]
      refine ⟨?_, ?_⟩
      · intro a' h'
        have := hN a' h'
        simpa using this
      · intro a' c' hc' hl
        simp only at hc'
        by_cases haa : a = a'
        · subst haa
          rw [List.getElem?_set_self (lt_of_getElem?_eq_some _ _ _ hc)] at hc'
          cases hc'
          simp [ExecCmd.live] at hl
        · rw [List.getElem?_set_ne haa] at hc'
          exact hL a' c' hc' hl
    · simp only [hcond]
      exact ⟨hN, hL⟩

theorem live_Write (p : Bytes) (res : Nat × Option GoError) (s : Sys) :
    (StderrCapturer.Write p res s).1.cmds = s.cmds ∧
    (StderrCapturer.Write p res s).1.app.Cmd = s.app.Cmd ∧
    (StderrCapturer.Write p res s).1.onces = s.onces ∧
    (StderrCapturer.Write p res s).1.app.start = s.app.start ∧
    (StderrCapturer.Write p res s).1.app.restart = s.app.restart := by
  unfold StderrCapturer.Write stdoutWrite
  by_cases h : stringsContains p HttpPanicMessage = true <;> simp [h]

theorem live_Restart (env : StartEnv) (s s4 : Sys) (e : Option GoError) (hA : Armed s)
    (hN : HandleNewest s) (hL : LiveIsHandle s) (hs : Restart env s = some (s4, e)) :
    HandleNewest s4 ∧ LiveIsHandle s4 := by
  rw [Restart_armed env s hA.2.1] at hs
  cases hst : Stop s with
  | none => simp [hst] at hs
  | some s1 =>
    cases hsa : Start true env s1 with
    | none => simp [hst, hsa] at hs
    | some r =>
      obtain ⟨s2, e2⟩ := r
      simp only [hst, hsa, Option.some_bind, Option.map_some', Option.some.injEq,
        Prod.mk.injEq] at hs
      obtain ⟨rfl, rfl⟩ := hs
      obtain ⟨hN1, hL1⟩ := live_Stop s s1 hN hL hst
      have hr1 := (Stop_frame s s1 hst).2.2.2.2.1
      have hA1 := Armed_Stop s s1 hA hst
      exact live_Start true env s1 s2 e2 hA1.1 hr1 hN1 hL1 hsa

/-- One event keeps the gates armed. -/
theorem Armed_step (ev : Event) (s s1 : Sys) (hA : Armed s) (hs : step ev s = some s1) :
    Armed s1 := by
  cases ev with
  | start b env =>
    simp only [step, Option.map_eq_some', Prod.exists, exists_and_right, exists_eq_right] at hs
    obtain ⟨e, he⟩ := hs
    exact (Armed_Start b env s s1 e hA he).1
  | restart env =>
    simp only [step, Option.map_eq_some', Prod.exists, exists_and_right, exists_eq_right] at hs
    obtain ⟨e, he⟩ := hs
    exact Armed_Restart env s s1 e hA he
  | stop => exact Armed_Stop s s1 hA hs
  | exit a code =>
    simp only [step, Option.some.injEq] at hs
    subst hs
    unfold childExit
    cases hc : s.cmds[a]? with
    | none => exact hA
    | some c =>
      by_cases hcond : (c.Process.isSome && c.ProcessState.isNone) = true
      · simp only [hcond, if_true]; exact hA
      · simp only [hcond]; exact hA
  | stderr p res =>
    simp only [step, Option.some.injEq] at hs
    subst hs
    obtain ⟨_, _, w3, w4, w5⟩ := live_Write p res s
    unfold Armed
    rw [w3, w4, w5]
    exact hA

/-- A sequence of events keeps the gates armed. -/
theorem Armed_runEvents (evs : List Event) :
    ∀ (s s1 : Sys), Armed s → runEvents s evs = some s1 → Armed s1 := by
  induction evs with
  | nil =>
    intro s s1 hA hs
    simp only [runEvents, Option.some.injEq] at hs
    subst hs
    exact hA
  | cons ev evs ih =>
    intro s s1 hA hs
    cases hst : step ev s with
    | none => simp [runEvents, hst] at hs
    | some s2 =>
      simp only [runEvents, hst] at hs
      exact ih s2 s1 (Armed_step ev s s2 hA hst) hs

/-- One event of a sequence whose direct `Start` calls find no running child keeps the
handle on the only live child. -/
theorem live_step (ev : Event) (s s1 : Sys) (hA : Armed s) (hN : HandleNewest s)
    (hL : LiveIsHandle s)
    (hd : (match ev with
      | .start _ _ => !IsRunning s
      | _ => true) = true)
    (hs : step ev s = some s1) : HandleNewest s1 ∧ LiveIsHandle s1 := by
  cases ev with
  | start b env =>
    simp only [step, Option.map_eq_some', Prod.exists, exists_and_right, exists_eq_right] at hs
    obtain ⟨e, he⟩ := hs
    have hr : IsRunning s = false := by simpa using hd
    exact live_Start b env s s1 e hA.1 hr hN hL he
  | restart env =>
    simp only [step, Option.map_eq_some', Prod.exists, exists_and_right, exists_eq_right] at hs
    obtain ⟨e, he⟩ := hs
    exact live_Restart env s s1 e hA hN hL he
  | stop => exact live_Stop s s1 hN hL hs
  | exit a code =>
    simp only [step, Option.some.injEq] at hs
    subst hs
    exact live_childExit a code s hN hL
  | stderr p res =>
    simp only [step, Option.some.injEq] at hs
    subst hs
    obtain ⟨w1, w2, _⟩ := live_Write p res s
    unfold HandleNewest LiveIsHandle
    rw [w1, w2]
    exact ⟨hN, hL⟩

theorem live_runEvents (evs : List Event) :
    ∀ (s s1 : Sys), Armed s → HandleNewest s → LiveIsHandle s →
      startsWhenStopped s evs = true → runEvents s evs = some s1 →
      HandleNewest s1 ∧ LiveIsHandle s1 := by
  induction evs with
  | nil =>
    intro s s1 _ hN hL _ hs
    simp only [runEvents, Option.some.injEq] at hs
    subst hs
    exact ⟨hN, hL⟩
  | cons ev evs ih =>
    intro s s1 hA hN hL hd hs
    cases hst : step ev s with
    | none => simp [runEvents, hst] at hs
    | some s2 =>
      simp only [runEvents, hst] at hs
      simp only [startsWhenStopped, hst, Bool.and_eq_true] at hd
      obtain ⟨hN2, hL2⟩ := live_step ev s s2 hA hN hL hd.1 hst
      exact ih s2 s1 (Armed_step ev s s2 hA hst) hN2 hL2 hd.2 hs

theorem startsWhenStopped_take (evs : List Event) :
    ∀ (s : Sys) (k : Nat), startsWhenStopped s evs = true →
      startsWhenStopped s (evs.take k) = true := by
  induction evs with
  | nil => intro s k h; simpa using h
  | cons ev evs ih =>
    intro s k h
    cases k with
    | zero => rfl
    | succ k =>
      simp only [startsWhenStopped, Bool.and_eq_true] at h
      simp only [List.take_succ_cons, startsWhenStopped, Bool.and_eq_true]
      refine ⟨h.1, ?_⟩
      cases hst : step ev s with
      | none => rfl
      | some s1 =>
        have h2 := h.2
        rw [hst] at h2
        exact ih s1 k h2

/-- When the handle is the newest command and designates every live child, at most one
child is live. -/
theorem liveCount_le_one (s : Sys) (hN : HandleNewest s) (hL : LiveIsHandle s) :
    liveCount s ≤ 1 := by
  unfold liveCount
  rcases List.eq_nil_or_concat s.cmds with h | ⟨L, b, h⟩
  · simp [h]
  · rw [List.concat_eq_append] at h
    have hnone : L.filter ExecCmd.live = [] := by
      rw [List.filter_eq_nil_iff]
      intro c hc hl
      obtain ⟨i, hi, rfl⟩ := List.getElem_of_mem hc
      have h1 : s.cmds[i]? = some L[i] := by
        rw [h, List.getElem?_append_left hi, List.getElem?_eq_getElem hi]
      have h2 := hN i (hL i L[i] h1 hl)
      rw [h] at h2
      simp at h2
      omega
    rw [h, List.filter_append, hnone]
    simp only [List.nil_append]
    exact le_trans (List.length_filter_le _ _) (by simp)

theorem Armed_NewApp (mainFile port name root : Bytes) (artifact : Bool) :
    Armed (NewApp mainFile port name root artifact) := by
  simp [Armed, NewApp]

theorem Start_cmds (b : Bool) (env : StartEnv) (s s1 : Sys) (e : Option GoError)
    (hg : s.onces[s.app.start]? = some false) (hs : Start b env s = some (s1, e)) :
    (s1.cmds = s.cmds ∧ s1.app.Cmd = s.app.Cmd) ∨
    (s1.cmds = s.cmds ++ [launchedCmd env] ∧ s1.app.Cmd = some s.cmds.length) := by
  rw [Start_armed b env s hg] at hs
  simp only [Option.some.injEq, Prod.mk.injEq] at hs
  obtain ⟨rfl, _⟩ := hs
  exact startBody_cmds b env s

theorem Restart_split (env : StartEnv) (s s4 : Sys) (e : Option GoError)
    (hg : s.onces[s.app.restart]? = some false) (h : Restart env s = some (s4, e)) :
    ∃ s1 s2, Stop s = some s1 ∧ Start true env s1 = some (s2, e) ∧
      s4.cmds = s2.cmds ∧ s4.app.Cmd = s2.app.Cmd ∧ s4.app.restart = s2.onces.length := by
  rw [Restart_armed env s hg] at h
  cases hst : Stop s with
  | none => simp [hst] at h
  | some s1 =>
    cases hsa : Start true env s1 with
    | none => simp [hst, hsa] at h
    | some r =>
      obtain ⟨s2, e2⟩ := r
      simp only [hst, hsa, Option.some_bind, Option.map_some', Option.some.injEq,
        Prod.mk.injEq] at h
      obtain ⟨rfl, rfl⟩ := h
      exact ⟨s1, s2, rfl, hsa, rfl, rfl, rfl⟩

theorem Stop_kills (s s1 : Sys) (a : Nat) (c : ExecCmd) (ha : s.app.Cmd = some a)
    (hc : s.cmds[a]? = some c) (hps : c.ProcessState = none) (h : Stop s = some s1) :
    s1.cmds = s.cmds.set a { c with killed := true } ∧ s1.app.Cmd = none := by
  cases hp : c.Process with
  | none =>
    rw [Stop_nil_process s a c ha hc hps hp] at h
    cases h
  | some pid =>
    rw [Stop_running s a pid c ha hc hps hp] at h
    cases h
    exact ⟨by simp only [hp], rfl⟩

/-- The error the closure of `Start` leaves in `startErr` does not depend on the error
an earlier call left there. -/
theorem startBody_startErr_own (b : Bool) (env : StartEnv) (s : Sys)
    (cached : Option GoError) :
    (startBody b env { s with app := { s.app with startErr := cached } }).app.startErr =
      (startBody b env s).app.startErr := by
  unfold startBody build run rearmStart RestartOnReturn println stdoutWrite
  by_cases hb : b <;> by_cases ho : env.out.length > 0 <;> by_cases ha : s.artifact
    <;> by_cases hab : env.artifactAfterBuild <;> by_cases hd : env.dial.isSome
    <;> by_cases hk : s.app.KeyPress <;> simp [hb, ho, ha, hab, hd, hk]

/-! ## Claims -/

/-- C2: `StderrCapturer.Write(p)` sets `LastError` to exactly `p` when `p` contains
`"http: panic serving"` and leaves it unchanged otherwise; in both cases the handle
`Cmd`, the commands and hence `IsRunning()` are untouched, and the result of the console
write is passed on. -/
theorem stderrCapturer_write (p : Bytes) (res : Nat × Option GoError) (s : Sys) :
    (StderrCapturer.Write p res s).1.app.LastError =
        (if HttpPanicMessage <:+: p then p else s.app.LastError) ∧
    (StderrCapturer.Write p res s).1.app.Cmd = s.app.Cmd ∧
    (StderrCapturer.Write p res s).1.cmds = s.cmds ∧
    IsRunning (StderrCapturer.Write p res s).1 = IsRunning s ∧
    liveCount (StderrCapturer.Write p res s).1 = liveCount s ∧
    (StderrCapturer.Write p res s).2 = res := by
  by_cases h : HttpPanicMessage <:+: p
  · have hc : stringsContains p HttpPanicMessage = true := (stringsContains_iff _ _).mpr h
    simp [StderrCapturer.Write, stdoutWrite, hc, h, IsRunning, liveCount]
  · have hc : stringsContains p HttpPanicMessage = false := by
      simpa using fun hh => h ((stringsContains_iff _ _).mp hh)
    simp [StderrCapturer.Write, stdoutWrite, hc, h, IsRunning, liveCount]

/-- C4: whatever the compiler's exit status, `build()` returns an error exactly when the
combined output is non-empty.  The error text is the output itself when the preamble
`"# command-line-arguments\n"` does not occur in it, and the output with the first
occurrence of the preamble removed when it does. -/
theorem build_error (env : StartEnv) (s : Sys) :
    ((build env s).2 = none ↔ env.out = []) ∧
    (env.out ≠ [] → ¬ commandLineArguments <:+: env.out →
      (build env s).2 = some (GoError.errorsNew env.out)) ∧
    (∀ a b : Bytes, env.out = a ++ commandLineArguments ++ b →
      ¬ commandLineArguments <:+: a ++ commandLineArguments.dropLast →
      (build env s).2 = some (GoError.errorsNew (a ++ b))) := by
  refine ⟨?_, ?_, ?_⟩
  · cases ho : env.out with
    | nil => simp [build, ho]
    | cons x xs => simp [build, ho]
  · intro ho hno
    have hlen : env.out.length > 0 := List.length_pos.mpr ho
    simp [build, hlen, stringsReplace_absent _ _ _ _ hno]
  · intro a b hab hno
    have hne : env.out ≠ [] := by
      rw [hab]
      intro hnil
      have h1 := congrArg List.length hnil
      have h2 : 0 < commandLineArguments.length :=
        List.length_pos.mpr commandLineArguments_ne_nil
      simp only [List.length_append, List.length_nil] at h1
      omega
    have hlen : env.out.length > 0 := List.length_pos.mpr hne
    have hrep := stringsReplace_first a b commandLineArguments commandLineArguments_ne_nil hno
    rw [← hab] at hrep
    simp [build, hlen, hrep]

/-- C4, at a sample: the preamble is stripped from a diagnostic, and an empty output is
no error even when the compiler's exit status is non-zero. -/
theorem build_error_witness :
    (build envBuildError fresh).2 =
        some (GoError.errorsNew (ascii "./main.go:3: undefined: x\n")) ∧
    (build { envOk with buildErr := some (GoError.exitError 1) } fresh).2 = none := by
  refine ⟨?_, ?_⟩
  · exact (build_error envBuildError fresh).2.2 [] (ascii "./main.go:3: undefined: x\n")
      (by decide) (by decide)
  · exact (build_error { envOk with buildErr := some (GoError.exitError 1) } fresh).1.mpr rfl

/-- C5: when the compiler produces non-empty output, `Start(true)` (gate unfired, as it
is between calls) returns the error built from that output with the preamble stripped and
does not run: no command is created whatever the artifact's state, the handle `Cmd` is
what it was, the watchers are not registered, and `IsRunning()` is what it was before,
so false when no child was running. -/
theorem Start_build_failure (env : StartEnv) (s : Sys)
    (hg : s.onces[s.app.start]? = some false) (ho : env.out ≠ []) :
    ∃ s1, Start true env s =
        some (s1, some (GoError.errorsNew (stringsReplace env.out commandLineArguments [] 1))) ∧
      s1.cmds = s.cmds ∧ s1.app.Cmd = s.app.Cmd ∧
      s1.app.KeyPress = s.app.KeyPress ∧ s1.watchers = s.watchers ∧
      s1.artifact = env.artifactAfterBuild ∧
      IsRunning s1 = IsRunning s ∧ liveCount s1 = liveCount s := by
  have hlen : env.out.length > 0 := List.length_pos.mpr ho
  rw [Start_armed true env s hg]
  refine ⟨{ startBody true env s with
            onces := (startBody true env s).onces.set s.app.start true }, ?_, ?_⟩
  · simp [startBody, build, hlen, rearmStart, println, stdoutWrite]
  · simp [startBody, build, hlen, rearmStart, println, stdoutWrite, IsRunning, liveCount]

/-- C5, at a sample: a failing build over a stale artifact launches nothing. -/
theorem Start_build_failure_witness :
    ∃ s1, Start true envBuildError freshStale =
        some (s1, some (GoError.errorsNew
          (stringsReplace envBuildError.out commandLineArguments [] 1))) ∧
      s1.cmds = freshStale.cmds ∧ s1.app.Cmd = freshStale.app.Cmd ∧
      s1.app.KeyPress = freshStale.app.KeyPress ∧ s1.watchers = freshStale.watchers ∧
      s1.artifact = envBuildError.artifactAfterBuild ∧
      IsRunning s1 = IsRunning freshStale ∧ liveCount s1 = liveCount freshStale :=
  Start_build_failure envBuildError freshStale (by decide) (by decide)

/-- C6, as stated, fails: with no artifact `Start(false)` does not return the error of
the existence check (`os.Stat`) but the run-failure error `"Fail to run <Name>"`, the
same error it returns when the readiness probe times out. -/
theorem Start_missing_artifact_not_stat_error :
    (Start false envOk fresh).map Prod.snd ≠ some (some GoError.statError) ∧
    (Start false envOk fresh).map Prod.snd =
      some (some (GoError.errorsNew (ascii "Fail to run app"))) ∧
    (Start false envProbeTimeout freshStale).map Prod.snd =
      some (some (GoError.errorsNew (ascii "Fail to run app"))) := by
  decide

/-- C6, amended: with no artifact, `Start(false)` (gate unfired) builds nothing and
launches nothing: the artifact is still missing, nothing is printed, no command is
created, the handle is what it was; it returns the run-failure error
`"Fail to run <Name>"`; and `IsRunning()` is what it was, so still false. -/
theorem Start_missing_artifact (env : StartEnv) (s : Sys)
    (hg : s.onces[s.app.start]? = some false) (ha : s.artifact = false) :
    ∃ s1, Start false env s =
        some (s1, some (GoError.errorsNew (ascii "Fail to run " ++ s.app.Name))) ∧
      s1.artifact = false ∧ s1.stdout = s.stdout ∧
      s1.cmds = s.cmds ∧ s1.app.Cmd = s.app.Cmd ∧
      IsRunning s1 = IsRunning s ∧ liveCount s1 = liveCount s := by
  rw [Start_armed false env s hg]
  refine ⟨{ startBody false env s with
            onces := (startBody false env s).onces.set s.app.start true }, ?_, ?_⟩
  · simp [startBody, run, ha, rearmStart]
  · simp [startBody, run, ha, rearmStart, IsRunning, liveCount]

/-- C6, amended, at a sample. -/
theorem Start_missing_artifact_witness :
    ∃ s1, Start false envOk fresh =
        some (s1, some (GoError.errorsNew (ascii "Fail to run " ++ fresh.app.Name))) ∧
      s1.artifact = false ∧ s1.stdout = fresh.stdout ∧
      s1.cmds = fresh.cmds ∧ s1.app.Cmd = fresh.app.Cmd ∧
      IsRunning s1 = IsRunning fresh ∧ liveCount s1 = liveCount fresh :=
  Start_missing_artifact envOk fresh (by decide) (by decide)

/-- C8: when the artifact exists after a skipped build or after a build without output,
`Start` (gate unfired) creates one new command, sets it running and installs it as the
handle whatever the probe reports.  `Start` returns no error exactly when the probe
succeeds; `IsRunning()` is then true exactly as long as no exit of the child has been
recorded.  When the probe fails `Start` returns `"Fail to run <Name>"` and the new
handle stays installed, not killed. -/
theorem Start_launches (b : Bool) (env : StartEnv) (s : Sys)
    (hg : s.onces[s.app.start]? = some false)
    (hrun : (b = false ∧ s.artifact = true) ∨
      (b = true ∧ env.out = [] ∧ env.artifactAfterBuild = true)) :
    ∃ s1 e, Start b env s = some (s1, e) ∧
      s1.cmds = s.cmds ++ [launchedCmd env] ∧
      s1.app.Cmd = some s.cmds.length ∧
      (launchedCmd env).killed = false ∧
      (e = none ↔ env.dial = none) ∧
      (IsRunning s1 = true ↔ (launchedCmd env).ProcessState = none) ∧
      (env.dial ≠ none →
        e = some (GoError.errorsNew (ascii "Fail to run " ++ s.app.Name))) := by
  rw [Start_armed b env s hg]
  refine ⟨_, _, rfl, ?_⟩
  rcases hrun with ⟨hb, ha⟩ | ⟨hb, ho, ha⟩
  · subst hb
    cases hd : env.dial with
    | none =>
      by_cases hk : s.app.KeyPress = true <;>
        simp [startBody, run, ha, hd, hk, rearmStart, RestartOnReturn, println, stdoutWrite,
          IsRunning, launchedCmd]
    | some err =>
      simp [startBody, run, ha, hd, rearmStart, println, stdoutWrite, IsRunning, launchedCmd]
  · subst hb
    cases hd : env.dial with
    | none =>
      by_cases hk : s.app.KeyPress = true <;>
        simp [startBody, build, run, ho, ha, hd, hk, rearmStart, RestartOnReturn, println,
          stdoutWrite, IsRunning, launchedCmd]
    | some err =>
      simp [startBody, build, run, ho, ha, hd, rearmStart, println, stdoutWrite, IsRunning,
        launchedCmd]

/-- C8, at a sample: a child that starts but never listens stays installed. -/
theorem Start_launches_witness :
    ∃ s1 e, Start true envProbeTimeout fresh = some (s1, e) ∧
      s1.cmds = fresh.cmds ++ [launchedCmd envProbeTimeout] ∧
      s1.app.Cmd = some fresh.cmds.length ∧
      (launchedCmd envProbeTimeout).killed = false ∧
      (e = none ↔ envProbeTimeout.dial = none) ∧
      (IsRunning s1 = true ↔ (launchedCmd envProbeTimeout).ProcessState = none) ∧
      (envProbeTimeout.dial ≠ none →
        e = some (GoError.errorsNew (ascii "Fail to run " ++ fresh.app.Name))) :=
  Start_launches true envProbeTimeout fresh (by decide) (Or.inr ⟨rfl, rfl, rfl⟩)

/-- C7: between calls (both gates unfired) `Restart()` does what `Stop()` followed by
`Start(true)` does: it panics exactly when that sequence does, and otherwise returns the
same error and leaves the same state, up to the bookkeeping of its own gate (`restart`,
`restartErr` and the heap of `sync.Once` objects), with `restartErr` the returned error
and both gates unfired.  From a Running state, whenever `Restart()` returns the previous
child has been killed and the handle is absent or designates a command created by this
call, never the previous one; and it does return when the previous child had been
started. -/
theorem Restart_is_Stop_then_Start (env : StartEnv) (s : Sys) (hA : Armed s) :
    (Restart env s = none ↔ (Stop s).bind (Start true env) = none) ∧
    (∀ s2 e, (Stop s).bind (Start true env) = some (s2, e) →
      ∃ s4, Restart env s = some (s4, e) ∧
        { s4 with
          app := { s4.app with restart := s2.app.restart, restartErr := s2.app.restartErr }
          onces := s2.onces } = s2 ∧
        s4.app.restartErr = e ∧ Armed s4 ∧ Armed s2) ∧
    (∀ a c, s.app.Cmd = some a → s.cmds[a]? = some c → c.ProcessState = none →
      (c.Process ≠ none → (Restart env s).isSome = true) ∧
      ∀ s4 e, Restart env s = some (s4, e) →
        s4.cmds[a]? = some { c with killed := true } ∧ s4.app.Cmd ≠ some a ∧
        (s4.app.Cmd = none ∨
          (s4.app.Cmd = some s.cmds.length ∧
            s4.cmds[s.cmds.length]? = some (launchedCmd env)))) := by
  have hR := Restart_armed env s hA.2.1
  refine ⟨?_, ?_, ?_⟩
  · rw [hR, Option.map_eq_none']
  · intro s2 e h
    have hR2 := hR
    rw [h] at hR2
    simp only [Option.map_some'] at hR2
    refine ⟨_, hR2, rfl, rfl, Armed_Restart env s _ e hA hR2, ?_⟩
    cases hst : Stop s with
    | none => simp [hst] at h
    | some s1 =>
      rw [hst, Option.some_bind] at h
      exact (Armed_Start true env s1 s2 e (Armed_Stop s s1 hA hst) h).1
  · intro a c ha hc hps
    have hlt := lt_of_getElem?_eq_some _ _ _ hc
    refine ⟨?_, ?_⟩
    · intro hp
      obtain ⟨pid, hpid⟩ := Option.ne_none_iff_exists'.mp hp
      have hst := Stop_running s a pid c ha hc hps hpid
      have hA1 := Armed_Stop s _ hA hst
      rw [hR, hst, Option.some_bind, Start_armed true env _ hA1.1]
      rfl
    · intro s4 e h4
      obtain ⟨s1, s2, hst, hsa, k1, k2, _⟩ := Restart_split env s s4 e hA.2.1 h4
      obtain ⟨m1, m2⟩ := Stop_kills s s1 a c ha hc hps hst
      have hA1 := Armed_Stop s s1 hA hst
      have hlen : s1.cmds.length = s.cmds.length := by rw [m1]; simp
      rcases Start_cmds true env s1 s2 e hA1.1 hsa with ⟨c1, c2⟩ | ⟨c1, c2⟩
      · refine ⟨?_, ?_, Or.inl ?_⟩
        · rw [k1, c1, m1, List.getElem?_set_self hlt]
        · rw [k2, c2, m2]; simp
        · rw [k2, c2, m2]
      · refine ⟨?_, ?_, Or.inr ⟨?_, ?_⟩⟩
        · rw [k1, c1, List.getElem?_append_left (by omega), m1, List.getElem?_set_self hlt]
        · rw [k2, c2, hlen]
          simp only [ne_eq, Option.some.injEq]
          omega
        · rw [k2, c2, hlen]
        · rw [k1, c1, ← hlen]
          simp

/-- C7, at a sample: `Restart()` from the Running state kills child 0 and installs a new
command. -/
theorem Restart_is_Stop_then_Start_witness :
    (Restart envOk running).isSome = true ∧
    (∀ s4 e, Restart envOk running = some (s4, e) →
      s4.cmds[0]? = some { Process := some 4711, ProcessState := none, killed := true } ∧
      s4.app.Cmd ≠ some 0 ∧
      (s4.app.Cmd = none ∨
        (s4.app.Cmd = some running.cmds.length ∧
          s4.cmds[running.cmds.length]? = some (launchedCmd envOk)))) := by
  have h := (Restart_is_Stop_then_Start envOk running (by decide)).2.2 0
    { Process := some 4711, ProcessState := none, killed := false } rfl rfl rfl
  exact ⟨h.1 (by decide), h.2⟩

/-- C9: in every state reached from `NewApp` by calls and events made one after another
both gates are unfired.  So the next `Start` executes its closure and returns the error
of that execution, which does not depend on the error cached by an earlier call, and
leaves a gate at a fresh address, unfired; and a `Restart` that returns has run `Stop`
and `Start(true)`, returns the error of that `Start`, and leaves both gates unfired, its
own at a fresh address. -/
theorem gates_rearmed (mainFile port name root : Bytes) (artifact : Bool)
    (evs : List Event) (s : Sys)
    (hs : runEvents (NewApp mainFile port name root artifact) evs = some s) :
    Armed s ∧
    (∀ b env, ∃ s1, Start b env s = some (s1, (startBody b env s).app.startErr) ∧
      s1.app.start = s.onces.length ∧ s1.onces[s1.app.start]? = some false) ∧
    (∀ b env cached,
      (startBody b env { s with app := { s.app with startErr := cached } }).app.startErr =
        (startBody b env s).app.startErr) ∧
    (∀ env s4 e, Restart env s = some (s4, e) →
      (∃ s1 s2, Stop s = some s1 ∧ Start true env s1 = some (s2, e) ∧
        e = (startBody true env s1).app.startErr) ∧
      s4.app.restart = s.onces.length + 1 ∧
      s4.onces[s4.app.restart]? = some false ∧ s4.onces[s4.app.start]? = some false) := by
  have hA : Armed s :=
    Armed_runEvents evs _ s (Armed_NewApp mainFile port name root artifact) hs
  refine ⟨hA, ?_, fun b env cached => startBody_startErr_own b env s cached, ?_⟩
  · intro b env
    have h := Start_armed b env s hA.1
    refine ⟨_, h, ?_, ?_⟩
    · exact (startBody_gates b env s).2.1
    · exact (Armed_Start b env s _ _ hA h).1.1
  · intro env s4 e h4
    obtain ⟨s1, s2, hst, hsa, _, _, k3⟩ := Restart_split env s s4 e hA.2.1 h4
    have hA1 := Armed_Stop s s1 hA hst
    have hA4 := Armed_Restart env s s4 e hA h4
    have hsa' := hsa
    rw [Start_armed true env s1 hA1.1] at hsa'
    simp only [Option.some.injEq, Prod.mk.injEq] at hsa'
    obtain ⟨hs2, he⟩ := hsa'
    refine ⟨⟨s1, s2, hst, hsa, he.symm⟩, ?_, hA4.2.1, hA4.1⟩
    rw [k3, ← hs2]
    simp [(startBody_gates true env s1).1, (Stop_frame s s1 hst).1]

/-- C9, at a sample: after a sequence of calls, one of them a `Restart` whose build
failed, the gates are unfired and the next `Start` runs and succeeds. -/
theorem gates_rearmed_witness :
    ∃ s, runEvents fresh sampleEvents = some s ∧ Armed s ∧
      ∃ s1, Start true envOk s = some (s1, none) := by
  have h : (runEvents fresh sampleEvents).isSome = true := by decide
  obtain ⟨s, hs⟩ := Option.isSome_iff_exists.mp h
  have hg := gates_rearmed (ascii "main.go") (ascii "3000") (ascii "app") (ascii ".") false
    sampleEvents s hs
  obtain ⟨s1, h1, _⟩ := hg.2.1 true envOk
  refine ⟨s, hs, hg.1, s1, ?_⟩
  rw [h1]
  have : (startBody true envOk s).app.startErr = none := by
    simp [startBody, build, run, envOk, rearmStart, RestartOnReturn, println, stdoutWrite]
    by_cases hk : s.app.KeyPress = true <;> simp [hk]
  rw [this]

/-- C1, as stated, fails: two `Start(true)` calls one after the other, each building and
launching with success, leave two live children; the handle designates the second. -/
theorem start_twice_two_live :
    (runEvents fresh [.start true envOk, .start true envOk]).map
        (fun s => (liveCount s, s.app.Cmd)) = some (2, some 1) := by
  decide

/-- C1, amended: for every sequence of `Start`, `Restart` and `Stop` calls (with children
exiting and writing to stderr in between) made one after another on a new `App`, in which
every direct `Start` call finds `IsRunning()` false, after each call that returns (after
the first `k` events, for every `k`) at most one child is live, every live child is the
one the handle designates, and a handle designates the most recently created command. -/
theorem one_live_child (mainFile port name root : Bytes) (artifact : Bool)
    (evs : List Event) (k : Nat) (s : Sys)
    (hd : startsWhenStopped (NewApp mainFile port name root artifact) evs = true)
    (hs : runEvents (NewApp mainFile port name root artifact) (evs.take k) = some s) :
    liveCount s ≤ 1 ∧ LiveIsHandle s ∧ HandleNewest s := by
  have hN0 : HandleNewest (NewApp mainFile port name root artifact) := by
    intro a ha
    simp [NewApp] at ha
  have hL0 : LiveIsHandle (NewApp mainFile port name root artifact) := by
    intro a c hc _
    simp [NewApp] at hc
  obtain ⟨hN, hL⟩ := live_runEvents (evs.take k) _ s
    (Armed_NewApp mainFile port name root artifact) hN0 hL0
    (startsWhenStopped_take evs _ k hd) hs
  exact ⟨liveCount_le_one s hN hL, hL, hN⟩

/-- C1, amended, at a sample sequence: its first seven events run to the end, the last
launch is live and is the handle. -/
theorem one_live_child_witness :
    ∃ s, runEvents fresh (sampleEvents.take 7) = some s ∧ liveCount s = 1 ∧
      s.app.Cmd = some 3 ∧ s.cmds.length = 4 ∧ LiveIsHandle s := by
  have h : (runEvents fresh (sampleEvents.take 7)).map
      (fun s => (liveCount s, s.app.Cmd, s.cmds.length)) = some (1, some 3, 4) := by decide
  obtain ⟨s, hs, hv⟩ := Option.map_eq_some'.mp h
  simp only [Prod.mk.injEq] at hv
  have hc := one_live_child (ascii "main.go") (ascii "3000") (ascii "app") (ascii ".") false
    sampleEvents 7 s (by decide) hs
  exact ⟨s, hs, hv.1, hv.2.1, hv.2.2, hc.2.1⟩

/-- C3, where the code fails it: `Start(true)` on a new `App`, with a build that leaves an
artifact that cannot be executed, returns with a handle whose `Process` is nil;
`IsRunning()` is true in that state and `Stop()` panics on `this.Cmd.Process.Kill()`. -/
theorem Stop_panics_after_failed_launch :
    (Start true envLaunchFails fresh).map Prod.fst = some launchFailed ∧
    IsRunning launchFailed = true ∧
    Stop launchFailed = none ∧
    Restart envOk launchFailed = none := by
  decide

/-- C10, as stated, fails: in the Exited state, reached by a successful `Start(true)`
whose child then exits, `Stop()` changes nothing: the handle stays, `IsQuit()` stays
true and the artifact is not deleted. -/
theorem Stop_exited_keeps_handle :
    runEvents fresh [.start true envOk, .exit 0 2] = some exited ∧
    IsQuit exited = true ∧ Stop exited = some exited ∧
    exited.app.Cmd = some 0 ∧ exited.artifact = true := by
  decide

/-- C10, amended: in a state where `IsRunning()` is true and the child of the handle has
been started, `Stop()` returns to Idle: the child is killed, the handle is cleared, so
`IsRunning()` and `IsQuit()` are false, and the artifact is deleted.  In the Exited state
`Stop()` returns the state unchanged. -/
theorem Stop_to_idle (s : Sys) :
    (∀ a c pid, s.app.Cmd = some a → s.cmds[a]? = some c → c.ProcessState = none →
      c.Process = some pid →
      ∃ s1, Stop s = some s1 ∧ s1.app.Cmd = none ∧ IsRunning s1 = false ∧
        IsQuit s1 = false ∧ s1.artifact = false ∧
        s1.cmds = s.cmds.set a { c with killed := true }) ∧
    (IsQuit s = true → Stop s = some s) := by
  refine ⟨?_, ?_⟩
  · intro a c pid ha hc hps hp
    have hst := Stop_running s a pid c ha hc hps hp
    refine ⟨_, hst, rfl, ?_, ?_, rfl, rfl⟩
    · simp [IsRunning]
    · simp [IsQuit]
  · intro hq
    apply Stop_not_running
    unfold IsQuit at hq
    unfold IsRunning
    cases ha : s.app.Cmd with
    | none => rfl
    | some a =>
      cases hc : s.cmds[a]? with
      | none => simp [hc]
      | some c =>
        simp only [ha, hc] at hq
        cases hps : c.ProcessState with
        | none => simp [hps] at hq
        | some st => simp [hc, hps]

/-- C10, amended, at the samples: `Stop()` takes the Running state to Idle and leaves the
Exited state as it is. -/
theorem Stop_to_idle_witness :
    (∃ s1, Stop running = some s1 ∧ s1.app.Cmd = none ∧ IsRunning s1 = false ∧
      IsQuit s1 = false ∧ s1.artifact = false ∧
      s1.cmds = running.cmds.set 0
        { Process := some 4711, ProcessState := none, killed := true }) ∧
    Stop exited = some exited :=
  ⟨(Stop_to_idle running).1 0 { Process := some 4711, ProcessState := none, killed := false }
      4711 rfl rfl rfl rfl,
    (Stop_to_idle exited).2 (by decide)⟩

end Tower
